import Mathlib

/-!
Verification of the RSVP extraction-and-playback engine of PulseReader.

The definitions below are a shallow embedding of the RSVP overlay module
(RSVPOverlay: timing, text extraction, playback state machine) and of the
reader-settings surface it interacts with.  JavaScript numbers that only
ever hold integers are modelled as Nat or Int; DOM nodes are modelled as a
tree of text nodes and elements; the repeating timer is modelled as a
tick operation on the playback state.
-/

namespace PulseReader

/-! ## Timing model

Source: RSVPOverlay, getInterval (lines 44-46):
  return Math.round(60000 / wpm)
For an integer wpm with 1 <= wpm, Math.round(60000 / wpm) equals
floor(60000 / wpm + 1/2) = floor((120000 + wpm) / (2 * wpm)); the IEEE
double quotient is exact at every half-integer tie in range, so the
rational rounding below coincides with the JavaScript value.
-/

def getInterval (wpm : Nat) : Nat := (120000 + wpm) / (2 * wpm)

/-- The playback effect (lines 258-275) arms its repeating timer with
getInterval(); the word being displayed is never consulted, so the
per-word display delay is a function of wpm alone. -/
def perWordDelay (_word : String) (wpm : Nat) : Nat := getInterval wpm

/-! ## Playback state machine

Source: RSVPOverlay state hooks (lines 28-35) and the handlers
togglePlay (302-311), skipBack / skipForward / restart (314-327),
decreaseWpm / increaseWpm (330-344), the playback tick (258-275) and the
progress slider (541-549).
-/

structure PState where
  words : List String
  currentIndex : Int
  isPlaying : Bool
  wpm : Int
  stoppedAtImage : Bool
  imageStopIndex : Int
deriving Repr, DecidableEq

/-- Number of loaded words, as the Int that JavaScript arithmetic sees. -/
def len (s : PState) : Int := (s.words.length : Int)

/-- State produced by a successful extraction while the overlay is open:
setWords, setCurrentIndex(0) (lines 230-232), setIsPlaying(false) and
setCurrentIndex(0) on open (lines 243-246), setStoppedAtImage(false) at
extraction start (line 57), and imageStopIndex as recorded by the
extraction (line 227, or -1 from line 58 when nothing was recorded). -/
def loadSequence (ws : List String) (stop : Int) (wpm : Int) : PState :=
  { words := ws, currentIndex := 0, isPlaying := false, wpm := wpm,
    stoppedAtImage := false, imageStopIndex := stop }

/-- togglePlay (lines 302-311): refused while stoppedAtImage; if the index
is at or past the last word it is reset to 0; then isPlaying is toggled. -/
def togglePlay (s : PState) : PState :=
  if s.stoppedAtImage then s
  else
    { s with
      currentIndex := if s.currentIndex ≥ len s - 1 then 0 else s.currentIndex,
      isPlaying := !s.isPlaying }

/-- One firing of the repeating timer.  The effect (lines 258-289) arms the
timer only while isPlaying and words.length > 0, so a tick in any other
state changes nothing.  The callback (lines 261-274) halts at the image
stop, stops at the last word, or advances by one. -/
def tick (s : PState) : PState :=
  if s.isPlaying ∧ 0 < s.words.length then
    if 0 < s.imageStopIndex ∧ s.currentIndex ≥ s.imageStopIndex - 1 then
      { s with isPlaying := false, stoppedAtImage := true }
    else if s.currentIndex ≥ len s - 1 then
      { s with isPlaying := false }
    else
      { s with currentIndex := s.currentIndex + 1 }
  else s

/-- skipBack (lines 314-316). -/
def skipBack (s : PState) : PState :=
  { s with currentIndex := max 0 (s.currentIndex - 10) }

/-- skipForward (lines 318-321). -/
def skipForward (s : PState) : PState :=
  let maxIndex : Int :=
    if 0 < s.imageStopIndex then min (len s - 1) (s.imageStopIndex - 1)
    else len s - 1
  { s with currentIndex := min maxIndex (s.currentIndex + 10) }

/-- restart (lines 323-327). -/
def restart (s : PState) : PState :=
  { s with currentIndex := 0, isPlaying := false, stoppedAtImage := false }

/-- Upper bound of the progress slider (line 545): Math.max(1, words.length - 1). -/
def sliderMax (s : PState) : Int := max 1 (len s - 1)

/-- Manual scrubbing via the progress slider (lines 541-549): the slider
hands onChange an integer between its min 0 and its max sliderMax, and the
handler stores it unchanged. -/
def seek (v : Int) (s : PState) : PState := { s with currentIndex := v }

/-- decreaseWpm (lines 330-336). -/
def decreaseWpm (s : PState) : PState := { s with wpm := max 100 (s.wpm - 50) }

/-- increaseWpm (lines 338-344). -/
def increaseWpm (s : PState) : PState := { s with wpm := min 1000 (s.wpm + 50) }

/-- The user-visible playback commands other than teardown.
continuePastBoundary (handleContinueToNextPage, lines 356-361) and close
(handleClose, lines 347-353) exit the overlay and destroy this state, so
they do not appear as state operations. -/
inductive POp where
  | toggle
  | timerTick
  | back
  | forward
  | reset
  | scrub (v : Int)
  | slower
  | faster
deriving Repr, DecidableEq

def applyOp : POp → PState → PState
  | POp.toggle, s => togglePlay s
  | POp.timerTick, s => tick s
  | POp.back, s => skipBack s
  | POp.forward, s => skipForward s
  | POp.reset, s => restart s
  | POp.scrub v, s => seek v s
  | POp.slower, s => decreaseWpm s
  | POp.faster, s => increaseWpm s

def applyOps (l : List POp) (s : PState) : PState :=
  l.foldl (fun s op => applyOp op s) s

/-- Side condition under which an operation can actually be issued from the
UI: the slider only produces values between its min and its max. -/
def opAllowed : POp → PState → Prop
  | POp.scrub v, s => 0 ≤ v ∧ v ≤ sliderMax s
  | _, _ => True

/-! ## Text extraction

Source: RSVPOverlay, extractText (lines 49-239).  Character data is
modelled on the code-unit lists underlying Lean strings; the JavaScript
regular expression classes are modelled on their ASCII meaning.
-/

/-- A character kept by the cleaning replace of lines 116 and 200:
everything outside the class backslash-w, backslash-s,
.,!?;:quote-doublequote-parens-emdash-endash-hyphen-smartquotes is
removed.  Code points 39, 8216, 8217, 8212 and 8211 are the apostrophe,
the two smart quotes, the em dash and the en dash. -/
def isAllowedChar (c : Char) : Bool :=
  c.isAlphanum || c = '_' || c.isWhitespace ||
    c ∈ ['.', ',', '!', '?', ';', ':', Char.ofNat 39, '"', '(', ')',
         Char.ofNat 8212, Char.ofNat 8211, '-', Char.ofNat 8217, Char.ofNat 8216]

/-- Splits a character list at every whitespace character; together with
the non-empty filter below this is trim() followed by split(whitespace-runs)
followed by the length filter of lines 113-115 and 194-197. -/
def splitWsAux : List Char → List Char → List (List Char)
  | [], cur => [cur.reverse]
  | c :: cs, cur =>
    if c.isWhitespace then cur.reverse :: splitWsAux cs []
    else splitWsAux cs (c :: cur)

/-- The (cleaned word, original word) pairs a text fragment contributes
(lines 113-121 and 194-210): split on whitespace, drop empty pieces, clean
each piece, and drop pieces that clean to nothing. -/
def tokenizePairs (s : String) : List (String × String) :=
  ((splitWsAux s.data []).filter (fun w => ¬w.isEmpty)).filterMap fun w =>
    let cw := w.filter isAllowedChar
    if cw.isEmpty then none else some (String.mk cw, String.mk w)

/-- Entry of wordElementsRef (lines 119 and 203-208): the originating text
node (stood in for by its full text), its cleaned word and the original
word.  The parent-element field of the source is a second back reference
derived from the same node and is omitted. -/
structure WordRef where
  node : String
  word : String
  originalWord : String
deriving Repr, DecidableEq

/-- A DOM node as the walker sees it: a text node (with flags telling
whether it is the start or end container of the range and the corresponding
offsets, meaningful only on the range-based walk) or an element with a tag
and children. -/
inductive DNode where
  | text (s : String) (isStart : Bool) (startOffset : Nat) (isEnd : Bool) (endOffset : Nat)
  | elem (tag : String) (children : List DNode)
deriving Repr

/-- JavaScript text.substring(0, e). -/
def jsTake (s : String) (e : Nat) : String := String.mk (s.data.take e)

/-- JavaScript text.substring(i). -/
def jsDrop (s : String) (i : Nat) : String := String.mk (s.data.drop i)

/-- Partial-text-node handling of the range walk, lines 102-113: the end
container is truncated to substring(0, endOffset) FIRST (line 106-108) and
the start container to substring(startOffset) SECOND (line 109-111). -/
def truncateRange (s : String) (isS : Bool) (so : Nat) (isE : Bool) (eo : Nat) : String :=
  let t1 := if isE then jsTake s eo else s
  if isS then jsDrop t1 so else t1

/-- The truncation in the order the claim states it: start offset first,
end offset second.  This definition follows the words of the claim and of
spec section 4.2 and exists only to be compared with truncateRange. -/
def truncateClaimOrder (s : String) (isS : Bool) (so : Nat) (isE : Bool) (eo : Nat) : String :=
  let t1 := if isS then jsDrop s so else s
  if isE then jsTake t1 eo else t1

/-- Walker accumulator: wordList and wordElementsRef (lines 70-71) plus
the hitImage flag and imageStopIdx (lines 72-73, initialised false / -1). -/
structure ExtractAcc where
  words : List String
  refs : List WordRef
  hitImage : Bool
  imageStopIdx : Int
deriving Repr, DecidableEq

def initAcc : ExtractAcc := { words := [], refs := [], hitImage := false, imageStopIdx := -1 }

/-- Tags that stop extraction (lines 97 and 164): img, svg, picture. -/
def boundaryTags : List String := ["img", "svg", "picture"]

/-- The two walks differ in which subtrees they reject and in whether the
range truncation applies. -/
structure WalkCfg where
  skipTags : List String
  useRange : Bool
deriving Repr, DecidableEq

/-- The CFI range walk (lines 90-124) rejects script and style subtrees
and truncates partial text nodes. -/
def cfiCfg : WalkCfg := { skipTags := ["script", "style"], useRange := true }

/-- The viewport fallback walk (lines 143-213) rejects children of script,
style and noscript elements and takes every text node whole (paginated
mode: the whole page is the viewport, lines 136-140 and 186-192). -/
def viewportCfg : WalkCfg := { skipTags := ["script", "style", "noscript"], useRange := false }

/-- Pushes the tokens of one text fragment: wordList.push(cw) and
wordElementsRef.push({node, parent, word, originalWord}) happen together
(lines 117-120 and 201-209). -/
def pushText (acc : ExtractAcc) (nodeText : String) (t : String) : ExtractAcc :=
  let ps := tokenizePairs t
  { acc with
    words := acc.words ++ ps.map Prod.fst,
    refs := acc.refs ++ ps.map fun p => { node := nodeText, word := p.1, originalWord := p.2 } }

mutual
/-- Processing of a single visited node.  Once hitImage is set the loops
break (line 96, and the break statements at lines 100 and 173), so a node
reached afterwards contributes nothing; a boundary element sets hitImage
and records imageStopIdx = wordList.length (lines 97-101 and 161-175); a
subtree of a skipped element is rejected (lines 91 and 147-155); a text node
contributes its tokens (lines 102-123 and 178-212). -/
def walkNode (cfg : WalkCfg) : DNode → ExtractAcc → ExtractAcc
  | DNode.text s isS so isE eo, acc =>
    if acc.hitImage then acc
    else
      pushText acc s (if cfg.useRange then truncateRange s isS so isE eo else s)
  | DNode.elem tag cs, acc =>
    if acc.hitImage then acc
    else if tag ∈ boundaryTags then
      { acc with hitImage := true, imageStopIdx := (acc.words.length : Int) }
    else if tag ∈ cfg.skipTags then acc
    else walkList cfg cs acc

/-- Document-order (depth-first, pre-order) traversal of a node list. -/
def walkList (cfg : WalkCfg) : List DNode → ExtractAcc → ExtractAcc
  | [], acc => acc
  | n :: l, acc => walkList cfg l (walkNode cfg n acc)
end

/-- The viewport fallback runs only if the walks so far found no words
(line 130); hitImage and imageStopIdx persist into it. -/
def extractAccFrom (a1 : ExtractAcc) (body : List DNode) : ExtractAcc :=
  if a1.words.length = 0 then walkList viewportCfg body a1 else a1

/-- The walks as extractText runs them: the range walk when a CFI range
was resolved (lines 80-127), then the viewport fallback if no words were
found (lines 130-216). -/
def extractAcc (rangeNodes : Option (List DNode)) (body : List DNode) : ExtractAcc :=
  extractAccFrom
    (match rangeNodes with
      | some ns => walkList cfiCfg ns initAcc
      | none => initAcc)
    body

/-- The stop-recording guard of lines 224-228: imageStopIndex is only set
when an image was hit AND imageStopIdx > 0; otherwise it stays -1, which
the rest of the component treats as "no stop". -/
def recordStop (hitImage : Bool) (idx : Int) : Option Int :=
  if hitImage ∧ 0 < idx then some idx else none

/-- End-to-end result of extractText (lines 218-233): the no-readable-text
early return, or the word list, the back-reference list and the recorded
stop index. -/
def extractText (rangeNodes : Option (List DNode)) (body : List DNode) :
    Except String (List String × List WordRef × Option Int) :=
  let a := extractAcc rangeNodes body
  if a.words.isEmpty then Except.error "No readable text found on this page"
  else Except.ok (a.words, a.refs, recordStop a.hitImage a.imageStopIdx)

/-- The region of claim C2: the text "The quick fox", then an image, then
the text "jumps". -/
def nodesC2 : List DNode :=
  [DNode.text "The quick fox" false 0 false 0,
   DNode.elem "img" [],
   DNode.text "jumps" false 0 false 0]

/-- The region of the C3 counterexample: an image reached before any word. -/
def nodesC3 : List DNode :=
  [DNode.elem "img" [], DNode.text "jumps" false 0 false 0]

/-! ## Training accelerator

Modelled from the spec: no training accelerator implementation exists
under src/ — the repository sources contain only the Training Mode
toggle and the hint text "Speed will increase by 10 WPM every 10 seconds"
(ReaderSettings, lines 234-244) and the persisted trainingMode setting.
Spec section 4.5: active only while playback is playing and training mode
is enabled; on a fixed 10-second cadence it increases wpm by 10, clamped
at 1500; it resets its own cadence timer whenever playback pauses, and
stops entirely when playback pauses or the mode exits.
-/

structure TrainState where
  wpm : Int
  running : Bool
  elapsed : Nat
  torndown : Bool
deriving Repr, DecidableEq

/-- Events the accelerator observes: one second of wall time passing,
playback pausing, playback resuming, and mode exit (teardown). -/
inductive TEvent where
  | second
  | pausePlayback
  | resumePlayback
  | exitMode
deriving Repr, DecidableEq

/-- Modelled from the spec: one event step of the accelerator.  A second
only counts while the accelerator is running; the tenth second of a
cadence fires the increment, clamped at 1500, and restarts the cadence.
Pause stops the accelerator and resets its cadence timer; resume restarts
the cadence from zero; exit stops it for good. -/
def tstep : TEvent → TrainState → TrainState
  | TEvent.second, s =>
    if s.running then
      if s.elapsed + 1 ≥ 10 then
        { s with wpm := min 1500 (s.wpm + 10), elapsed := 0 }
      else
        { s with elapsed := s.elapsed + 1 }
    else s
  | TEvent.pausePlayback, s => { s with running := false, elapsed := 0 }
  | TEvent.resumePlayback, s =>
    if s.torndown then s else { s with running := true, elapsed := 0 }
  | TEvent.exitMode, s => { s with running := false, torndown := true }

def tsteps : List TEvent → TrainState → TrainState
  | [], s => s
  | e :: t, s => tsteps t (tstep e s)

/-! ## Claim C1 -/

/-- C1: the claim states that the per-word display delay is
round(60000 / wpm) times a multiplier (x2.5 for sentence-final
punctuation, x1.5 for clause punctuation, x1.2 for length at least 8),
with delayMs("Hello.", 300) = 500 and delayMs("wonderful", 300) = 240.
The code has no such multipliers: getInterval ignores the word entirely,
so every word at 300 wpm is displayed for round(60000/300) = 200 ms;
"Hello." gets 200 ms, not 500, and "wonderful" gets 200 ms, not 240.
(The README and SPEC.md of the repository document the multipliers, so
this is the code contradicting its own documentation.) -/
theorem timing_has_no_multipliers :
    perWordDelay "Hello." 300 = 200 ∧
    perWordDelay "cat" 300 = 200 ∧
    perWordDelay "wonderful" 300 = 200 ∧
    perWordDelay "Hello." 300 ≠ 500 ∧
    perWordDelay "wonderful" 300 ≠ 240 := by
  decide

/-! ## Claim C9 -/

/-- C9: for a fixed word, the per-word delay is monotonically decreasing
(antitone) in wpm over the whole range [100, 1500]. -/
theorem perWordDelay_antitone (word : String) (w1 w2 : Nat)
    (h100 : 100 ≤ w1) (h12 : w1 ≤ w2) (_h15 : w2 ≤ 1500) :
    perWordDelay word w2 ≤ perWordDelay word w1 := by
  unfold perWordDelay getInterval
  have hpos1 : 0 < 2 * w1 := by omega
  rw [Nat.le_div_iff_mul_le hpos1]
  have hq : (120000 + w2) / (2 * w2) * (2 * w2) ≤ 120000 + w2 :=
    Nat.div_mul_le_self _ _
  rcases Nat.eq_zero_or_pos ((120000 + w2) / (2 * w2)) with h0 | hpos
  · rw [h0]; omega
  · obtain ⟨k, hk⟩ : ∃ k, (120000 + w2) / (2 * w2) = k + 1 :=
      ⟨(120000 + w2) / (2 * w2) - 1, by omega⟩
    rw [hk] at hq ⊢
    have e1 : (k + 1) * (2 * w2) = (2 * k + 1) * w2 + w2 := by ring
    have e2 : (k + 1) * (2 * w1) = (2 * k + 1) * w1 + w1 := by ring
    have mono : (2 * k + 1) * w1 ≤ (2 * k + 1) * w2 :=
      Nat.mul_le_mul_left _ h12
    linarith

/-- Witness for C9 at word "cat", wpm 300 and 600. -/
theorem perWordDelay_antitone_witness :
    perWordDelay "cat" 600 ≤ perWordDelay "cat" 300 :=
  perWordDelay_antitone "cat" 300 600 (by decide) (by decide) (by decide)

/-! ## Claim C4 -/

/-- Every operation other than restart leaves stoppedAtImage set: only
restart (line 326) and a fresh extraction clear it. -/
theorem stopped_preserved (op : POp) (s : PState)
    (h : s.stoppedAtImage = true) (hop : op ≠ POp.reset) :
    (applyOp op s).stoppedAtImage = true := by
  cases op with
  | toggle => simp [applyOp, togglePlay, h]
  | timerTick =>
    simp only [applyOp, tick]
    split
    · split
      · simp
      · split <;> simp [h]
    · exact h
  | back => simp [applyOp, skipBack, h]
  | forward => simp [applyOp, skipForward, h]
  | reset => exact absurd rfl hop
  | scrub v => simp [applyOp, seek, h]
  | slower => simp [applyOp, decreaseWpm, h]
  | faster => simp [applyOp, increaseWpm, h]

theorem stopped_preserved_list (ops : List POp) (s : PState)
    (h : s.stoppedAtImage = true) (hops : POp.reset ∉ ops) :
    (applyOps ops s).stoppedAtImage = true := by
  induction ops generalizing s with
  | nil => simpa [applyOps] using h
  | cons op rest ih =>
    have h1 : op ≠ POp.reset := fun he => hops (he ▸ List.mem_cons_self _ _)
    have h2 : POp.reset ∉ rest := fun he => hops (List.mem_cons_of_mem _ he)
    simpa [applyOps] using ih (applyOp op s) (stopped_preserved op s h h1) h2

/-- C4: while stoppedAtImage is true, togglePlay is the identity on the
whole playback state (togglePlay returns immediately, lines 303-306), and
this stays so across any sequence of playback operations that does not
include restart: stoppedAtImage remains true and togglePlay remains a
no-op.  (continuePastBoundary and close tear the overlay down, so they
are not state operations.) -/
theorem play_noop_while_halted (s : PState) (ops : List POp)
    (h : s.stoppedAtImage = true) (hops : POp.reset ∉ ops) :
    togglePlay s = s ∧
    (applyOps ops s).stoppedAtImage = true ∧
    togglePlay (applyOps ops s) = applyOps ops s := by
  have hafter := stopped_preserved_list ops s h hops
  refine ⟨?_, hafter, ?_⟩
  · simp [togglePlay, h]
  · simp [togglePlay, hafter]

/-- Witness for C4: a halted state, followed by a tick, a skip and a
scrub, still refuses togglePlay. -/
theorem play_noop_while_halted_witness :
    togglePlay ⟨["a", "b", "c"], 1, false, 300, true, 2⟩ =
        ⟨["a", "b", "c"], 1, false, 300, true, 2⟩ ∧
    (applyOps [POp.timerTick, POp.back, POp.scrub 2]
        ⟨["a", "b", "c"], 1, false, 300, true, 2⟩).stoppedAtImage = true ∧
    togglePlay (applyOps [POp.timerTick, POp.back, POp.scrub 2]
        ⟨["a", "b", "c"], 1, false, 300, true, 2⟩) =
      applyOps [POp.timerTick, POp.back, POp.scrub 2]
        ⟨["a", "b", "c"], 1, false, 300, true, 2⟩ :=
  play_noop_while_halted ⟨["a", "b", "c"], 1, false, 300, true, 2⟩
    [POp.timerTick, POp.back, POp.scrub 2] rfl (by decide)

/-! ## Claim C6 -/

/-- If the index is at or past the last word and playback is not halted at
an image, togglePlay resets the index to 0 (lines 307-309). -/
theorem togglePlay_at_last (s : PState) (hs : s.stoppedAtImage = false)
    (hlast : s.currentIndex ≥ len s - 1) : (togglePlay s).currentIndex = 0 := by
  unfold togglePlay
  rw [if_neg (by simp [hs]), if_pos hlast]

/-- C6: loading a 1-token sequence and pressing play leaves currentIndex
at 0 and starts playback; the very next tick stops playback (isPlaying
becomes false) with currentIndex still 0, and further ticks change
nothing.  In addition, togglePlay from any non-halted state whose index is
at the last word resets the index to 0 before starting
(restart-on-replay, lines 307-309). -/
theorem single_word_playback (w : String) (wpm : Int) (s : PState)
    (hs : s.stoppedAtImage = false) (hlast : s.currentIndex ≥ len s - 1) :
    (togglePlay (loadSequence [w] (-1) wpm)).currentIndex = 0 ∧
    (togglePlay (loadSequence [w] (-1) wpm)).isPlaying = true ∧
    (tick (togglePlay (loadSequence [w] (-1) wpm))).isPlaying = false ∧
    (tick (togglePlay (loadSequence [w] (-1) wpm))).currentIndex = 0 ∧
    tick (tick (togglePlay (loadSequence [w] (-1) wpm))) =
      tick (togglePlay (loadSequence [w] (-1) wpm)) ∧
    (togglePlay s).currentIndex = 0 := by
  refine ⟨?_, ?_, ?_, ?_, ?_, togglePlay_at_last s hs hlast⟩ <;>
    simp [loadSequence, togglePlay, tick, len]

/-- Witness for C6 with the word "hello" at 300 wpm, and a 2-word state
sitting at its last index for the restart-on-replay clause. -/
theorem single_word_playback_witness :
    (togglePlay (loadSequence ["hello"] (-1) 300)).currentIndex = 0 ∧
    (togglePlay (loadSequence ["hello"] (-1) 300)).isPlaying = true ∧
    (tick (togglePlay (loadSequence ["hello"] (-1) 300))).isPlaying = false ∧
    (tick (togglePlay (loadSequence ["hello"] (-1) 300))).currentIndex = 0 ∧
    tick (tick (togglePlay (loadSequence ["hello"] (-1) 300))) =
      tick (togglePlay (loadSequence ["hello"] (-1) 300)) ∧
    (togglePlay ⟨["a", "b"], 1, false, 300, false, -1⟩).currentIndex = 0 :=
  single_word_playback "hello" 300 ⟨["a", "b"], 1, false, 300, false, -1⟩
    rfl (by decide)

/-! ## Claim C8 -/

/-- C8 counterexample: the claim says manual scrubbing clamps to
[0, length-1].  The upper bound of the slider is Math.max(1, words.length - 1)
(line 545), so on a 1-word sequence the slider allows the value 1, and the
handler stores currentIndex = 1 = length, violating
0 <= currentIndex < length.  On an empty sequence, skipForward sets
currentIndex = min(words.length - 1, currentIndex + 10) = -1, violating
the claimed currentIndex = 0. -/
theorem seek_escapes_one_word_sequence :
    opAllowed (POp.scrub 1) (loadSequence ["hi"] (-1) 300) ∧
    (applyOp (POp.scrub 1) (loadSequence ["hi"] (-1) 300)).currentIndex = 1 ∧
    ¬((applyOp (POp.scrub 1) (loadSequence ["hi"] (-1) 300)).currentIndex <
        ((applyOp (POp.scrub 1) (loadSequence ["hi"] (-1) 300)).words.length : Int)) ∧
    (skipForward (loadSequence [] (-1) 300)).currentIndex = -1 := by
  refine ⟨⟨by decide, by decide⟩, by decide, by decide, by decide⟩

/-- C8 amended: on a non-empty sequence, every playback operation
preserves 0 <= currentIndex <= max 1 (length - 1); for sequences of
length at least 2 this is exactly the claimed invariant
0 <= currentIndex < length.  (On a 1-word sequence the slider can set
currentIndex = 1, one past the end, which is why the bound is
max 1 (length - 1) rather than length - 1.) -/
theorem index_invariant_amended (s : PState) (op : POp)
    (hne : s.words ≠ []) (h0 : 0 ≤ s.currentIndex)
    (h1 : s.currentIndex ≤ sliderMax s) (hop : opAllowed op s) :
    0 ≤ (applyOp op s).currentIndex ∧
    (applyOp op s).currentIndex ≤ sliderMax (applyOp op s) ∧
    (2 ≤ s.words.length →
      (applyOp op s).currentIndex < ((applyOp op s).words.length : Int)) := by
  have hlen : 1 ≤ s.words.length := List.length_pos.mpr hne
  cases op with
  | toggle =>
    simp only [applyOp, togglePlay]
    split <;> [skip; split] <;>
      simp_all [sliderMax, len] <;> omega
  | timerTick =>
    simp only [applyOp, tick]
    split <;> [split; skip] <;> [skip; split; skip] <;>
      simp_all [sliderMax, len] <;> omega
  | back =>
    simp only [applyOp, skipBack]
    simp_all [sliderMax, len]
    omega
  | forward =>
    simp only [applyOp, skipForward]
    split <;> simp_all [sliderMax, len] <;> omega
  | reset =>
    simp_all [applyOp, restart, sliderMax, len]; omega
  | scrub v =>
    obtain ⟨hv0, hv1⟩ := hop
    simp_all [applyOp, seek, sliderMax, len]; omega
  | slower =>
    simp_all [applyOp, decreaseWpm, sliderMax, len]; omega
  | faster =>
    simp_all [applyOp, increaseWpm, sliderMax, len]; omega

/-- Witness for the amended C8: skipForward on a 5-word sequence at index
2 stays within bounds. -/
theorem index_invariant_amended_witness :
    0 ≤ (applyOp POp.forward ⟨["a", "b", "c", "d", "e"], 2, true, 300, false, -1⟩).currentIndex ∧
    (applyOp POp.forward ⟨["a", "b", "c", "d", "e"], 2, true, 300, false, -1⟩).currentIndex ≤
      sliderMax (applyOp POp.forward ⟨["a", "b", "c", "d", "e"], 2, true, 300, false, -1⟩) ∧
    (2 ≤ (⟨["a", "b", "c", "d", "e"], 2, true, 300, false, -1⟩ : PState).words.length →
      (applyOp POp.forward ⟨["a", "b", "c", "d", "e"], 2, true, 300, false, -1⟩).currentIndex <
        ((applyOp POp.forward ⟨["a", "b", "c", "d", "e"], 2, true, 300, false, -1⟩).words.length : Int)) :=
  index_invariant_amended ⟨["a", "b", "c", "d", "e"], 2, true, 300, false, -1⟩
    POp.forward (by decide) (by decide) (by decide) trivial

/-! ## Walker helper lemmas -/

/-- Once hitImage is set, a visited node changes nothing (the loops break
at line 96 and at lines 100 and 173). -/
theorem walkNode_hit (cfg : WalkCfg) (n : DNode) (acc : ExtractAcc)
    (h : acc.hitImage = true) : walkNode cfg n acc = acc := by
  cases n <;> simp [walkNode, h]

theorem walkList_hit (cfg : WalkCfg) (l : List DNode) (acc : ExtractAcc)
    (h : acc.hitImage = true) : walkList cfg l acc = acc := by
  induction l with
  | nil => simp [walkList]
  | cons n t ih => rw [walkList, walkNode_hit cfg n acc h, ih]

/-- Invariant maintained by the walks: the back-reference list carries, in
order, exactly the cleaned words of the word list, and imageStopIdx is
still -1 as long as no image was hit. -/
def WalkInv (acc : ExtractAcc) : Prop :=
  acc.refs.map WordRef.word = acc.words ∧
  (acc.hitImage = false → acc.imageStopIdx = -1)

theorem pushText_inv (acc : ExtractAcc) (nodeText t : String)
    (h : WalkInv acc) : WalkInv (pushText acc nodeText t) := by
  obtain ⟨h1, h2⟩ := h
  refine ⟨?_, by simpa [pushText] using h2⟩
  simp [pushText, List.map_map, Function.comp_def, h1]

mutual
theorem walkNode_inv (cfg : WalkCfg) (n : DNode) (acc : ExtractAcc)
    (h : WalkInv acc) : WalkInv (walkNode cfg n acc) := by
  cases n with
  | text s isS so isE eo =>
    rw [walkNode]
    split
    · exact h
    · exact pushText_inv acc s _ h
  | elem tag cs =>
    rw [walkNode]
    split
    · exact h
    · split
      · exact ⟨h.1, by simp⟩
      · split
        · exact h
        · exact walkList_inv cfg cs acc h

theorem walkList_inv (cfg : WalkCfg) (l : List DNode) (acc : ExtractAcc)
    (h : WalkInv acc) : WalkInv (walkList cfg l acc) := by
  cases l with
  | nil => rw [walkList]; exact h
  | cons n t => rw [walkList]; exact walkList_inv cfg t _ (walkNode_inv cfg n acc h)
end

theorem extractAccFrom_inv (a1 : ExtractAcc) (body : List DNode)
    (h : WalkInv a1) : WalkInv (extractAccFrom a1 body) := by
  unfold extractAccFrom
  split
  · exact walkList_inv _ _ _ h
  · exact h

theorem extractAcc_inv (rng : Option (List DNode)) (body : List DNode) :
    WalkInv (extractAcc rng body) := by
  have base : WalkInv initAcc := ⟨rfl, fun _ => rfl⟩
  cases rng with
  | none => exact extractAccFrom_inv initAcc body base
  | some ns => exact extractAccFrom_inv _ body (walkList_inv cfiCfg ns initAcc base)

/-! ## Claim C2 -/

/-- C2: segmenting a region whose in-order content is the text
"The quick fox", then an image, then the text "jumps" yields exactly the
three tokens The, quick, fox with stopIndex = 3 and no token from
"jumps"; and in general, on either walk, reaching a boundary element
halts segmentation immediately — the result records hitImage and
imageStopIdx = current word count, and the nodes after the boundary (and
the children of the boundary) are never visited, in the sense that the
result does not depend on them. -/
theorem segmentation_stops_at_image (tag : String) (cs rest : List DNode)
    (acc : ExtractAcc) (cfg : WalkCfg) (hb : tag ∈ boundaryTags)
    (hacc : acc.hitImage = false) :
    extractText (some nodesC2) nodesC2 =
      Except.ok (["The", "quick", "fox"],
        [{ node := "The quick fox", word := "The", originalWord := "The" },
         { node := "The quick fox", word := "quick", originalWord := "quick" },
         { node := "The quick fox", word := "fox", originalWord := "fox" }],
        some 3) ∧
    walkList cfg (DNode.elem tag cs :: rest) acc =
      { acc with hitImage := true, imageStopIdx := (acc.words.length : Int) } := by
  constructor
  · rfl
  · have h1 : walkNode cfg (DNode.elem tag cs) acc =
        { acc with hitImage := true, imageStopIdx := (acc.words.length : Int) } := by
      rw [walkNode]
      simp [hacc, hb]
    rw [walkList, h1, walkList_hit _ _ _ rfl]

/-- Witness for C2: the boundary step at the img element of the C2 region
itself, starting from the untouched accumulator. -/
theorem segmentation_stops_at_image_witness :
    extractText (some nodesC2) nodesC2 =
      Except.ok (["The", "quick", "fox"],
        [{ node := "The quick fox", word := "The", originalWord := "The" },
         { node := "The quick fox", word := "quick", originalWord := "quick" },
         { node := "The quick fox", word := "fox", originalWord := "fox" }],
        some 3) ∧
    walkList cfiCfg (DNode.elem "img" [] :: [DNode.text "jumps" false 0 false 0]) initAcc =
      { initAcc with hitImage := true, imageStopIdx := (initAcc.words.length : Int) } :=
  segmentation_stops_at_image "img" [] [DNode.text "jumps" false 0 false 0]
    initAcc cfiCfg (by decide) rfl

/-! ## Claim C3 -/

/-- C3 counterexample: the claim says that a boundary hit before any word
token (imageStopIdx = 0) still records a defined stopIndex.  On the region
consisting of an image followed by the text "jumps", the walk hits the
boundary with imageStopIdx = 0, the guard of lines 224-228 refuses to
record it (recordStop gives none), and extraction in fact reports
no-readable-text, so no defined stop index exists anywhere. -/
theorem boundary_at_zero_not_recorded :
    (extractAcc (some nodesC3) nodesC3).hitImage = true ∧
    (extractAcc (some nodesC3) nodesC3).imageStopIdx = 0 ∧
    recordStop (extractAcc (some nodesC3) nodesC3).hitImage
        (extractAcc (some nodesC3) nodesC3).imageStopIdx = none ∧
    extractText (some nodesC3) nodesC3 =
      Except.error "No readable text found on this page" := by
  refine ⟨rfl, rfl, rfl, rfl⟩

/-- C3 amended: in every successful extraction, stopIndex is defined if
and only if a boundary was hit at a positive position (that is, after at
least one word token); every defined stopIndex is positive; and when no
boundary was hit, the raw index is still its initial -1, so stopIndex is
none exactly as claimed.  (A boundary hit before any token leaves
stopIndex none — if nothing else produced tokens the extraction reports
no-readable-text instead.) -/
theorem stop_defined_iff (rng : Option (List DNode)) (body : List DNode)
    (ws : List String) (rs : List WordRef) (st : Option Int)
    (h : extractText rng body = Except.ok (ws, rs, st)) :
    (st = none ↔
      ¬((extractAcc rng body).hitImage = true ∧ 0 < (extractAcc rng body).imageStopIdx)) ∧
    (∀ k, st = some k → 0 < k) ∧
    ((extractAcc rng body).hitImage = false → (extractAcc rng body).imageStopIdx = -1) := by
  have hst : st = recordStop (extractAcc rng body).hitImage (extractAcc rng body).imageStopIdx := by
    simp only [extractText] at h
    split at h
    · simp at h
    · rw [Except.ok.injEq, Prod.mk.injEq, Prod.mk.injEq] at h
      exact h.2.2.symm
  refine ⟨?_, ?_, (extractAcc_inv rng body).2⟩
  · rw [hst]; unfold recordStop
    split
    · next hcond => simp [hcond]
    · next hcond => simp [hcond]
  · intro k hk
    rw [hst] at hk
    unfold recordStop at hk
    split at hk
    · next hcond =>
      simp only [Option.some.injEq] at hk
      exact hk ▸ hcond.2
    · simp at hk

/-- Witness for the amended C3 on the C2 region, whose extraction
succeeds with stopIndex some 3. -/
theorem stop_defined_iff_witness :
    ((some 3 : Option Int) = none ↔
      ¬((extractAcc (some nodesC2) nodesC2).hitImage = true ∧
        0 < (extractAcc (some nodesC2) nodesC2).imageStopIdx)) ∧
    (∀ k, (some 3 : Option Int) = some k → 0 < k) ∧
    ((extractAcc (some nodesC2) nodesC2).hitImage = false →
      (extractAcc (some nodesC2) nodesC2).imageStopIdx = -1) :=
  stop_defined_iff (some nodesC2) nodesC2 ["The", "quick", "fox"]
    [{ node := "The quick fox", word := "The", originalWord := "The" },
     { node := "The quick fox", word := "quick", originalWord := "quick" },
     { node := "The quick fox", word := "fox", originalWord := "fox" }]
    (some 3) rfl

/-! ## Claim C5 -/

/-- C5 counterexample: the claim says a text node that is both the start
and the end container is truncated at the start offset first and at the
end offset second.  The code (lines 106-111) truncates at the END offset
first.  On the text "abcdef" with startOffset 2 and endOffset 4 the two
orders disagree: the code yields "cd" (characters [2,4) of the original),
the claimed order yields "cdef". -/
theorem truncation_order_differs :
    truncateRange "abcdef" true 2 true 4 = "cd" ∧
    truncateClaimOrder "abcdef" true 2 true 4 = "cdef" ∧
    truncateRange "abcdef" true 2 true 4 ≠ truncateClaimOrder "abcdef" true 2 true 4 := by
  refine ⟨rfl, rfl, by decide⟩

/-- C5 amended: a text node that is both the start and the end container
is truncated at the END offset first (substring(0, endOffset), lines
106-108) and at the start offset second (substring(startOffset), lines
109-111); consequently the in-range substring used for segmentation is
exactly the character range [startOffset, endOffset) of the original
text, and that is the fragment the walker tokenizes. -/
theorem truncation_end_first (s : String) (so eo : Nat) (acc : ExtractAcc)
    (hacc : acc.hitImage = false) :
    truncateRange s true so true eo = String.mk ((s.data.drop so).take (eo - so)) ∧
    walkNode cfiCfg (DNode.text s true so true eo) acc =
      pushText acc s (String.mk ((s.data.drop so).take (eo - so))) := by
  have h1 : truncateRange s true so true eo = String.mk ((s.data.drop so).take (eo - so)) := by
    simp [truncateRange, jsTake, jsDrop, List.drop_take]
  refine ⟨h1, ?_⟩
  rw [walkNode]
  simp only [hacc]
  rw [if_neg (by simp)]
  simp [cfiCfg, h1]

/-- Witness for the amended C5 at "abcdef", offsets 2 and 4. -/
theorem truncation_end_first_witness :
    truncateRange "abcdef" true 2 true 4 =
      String.mk (("abcdef".data.drop 2).take (4 - 2)) ∧
    walkNode cfiCfg (DNode.text "abcdef" true 2 true 4) initAcc =
      pushText initAcc "abcdef" (String.mk (("abcdef".data.drop 2).take (4 - 2))) :=
  truncation_end_first "abcdef" 2 4 initAcc rfl

/-! ## Claim C10 -/

/-- C10: after every extraction the word list and the back-reference list
are in lockstep — mapping the cleaned-word field over the reference list
gives exactly the word list, the two lists have equal length, and at every
index i the reference carries the word stored at i (so the reference
handleClose emits at currentIndex, line 349, is the reference of the word
at currentIndex). -/
theorem words_refs_lockstep (rng : Option (List DNode)) (body : List DNode) :
    (extractAcc rng body).refs.map WordRef.word = (extractAcc rng body).words ∧
    (extractAcc rng body).refs.length = (extractAcc rng body).words.length ∧
    ∀ i : Nat, ((extractAcc rng body).refs[i]?).map WordRef.word =
      (extractAcc rng body).words[i]? := by
  have h1 := (extractAcc_inv rng body).1
  refine ⟨h1, ?_, ?_⟩
  · rw [← h1, List.length_map]
  · intro i
    rw [← h1, List.getElem?_map]

/-! ## Claim C7 -/

/-- C7 (modelled from the spec, no accelerator implementation exists under
src/): while playback is active with training mode on, one full 10-second
cadence raises wpm by exactly 10, clamped at 1500, and re-arms the
cadence; pausing playback stops the accelerator and resets its cadence
timer; while paused, the passage of time changes nothing at all; and
after mode exit (teardown) no event sequence whatsoever can change wpm
again. -/
theorem training_cadence (w : Int) (td : Bool) (n : Nat) (s p q : TrainState)
    (hp : p.running = false) (hs1 : s.running = false) (hs2 : s.torndown = true)
    (evs : List TEvent) :
    tsteps (List.replicate 10 TEvent.second) ⟨w, true, 0, td⟩ =
      ⟨min 1500 (w + 10), true, 0, td⟩ ∧
    (tstep TEvent.pausePlayback q).running = false ∧
    (tstep TEvent.pausePlayback q).elapsed = 0 ∧
    tsteps (List.replicate n TEvent.second) p = p ∧
    (tsteps evs s).wpm = s.wpm := by
  refine ⟨?_, ?_, ?_, ?_, ?_⟩
  · simp [tsteps, tstep, List.replicate]
  · simp [tstep]
  · simp [tstep]
  · induction n with
    | zero => simp [tsteps]
    | succ m ih =>
      rw [List.replicate_succ, tsteps, tstep]
      simpa [hp] using ih
  · have key : ∀ (l : List TEvent) (r : TrainState),
        r.running = false → r.torndown = true →
        (tsteps l r).wpm = r.wpm := by
      intro l
      induction l with
      | nil => intro r _ _; simp [tsteps]
      | cons e t ih =>
        intro r hr1 hr2
        rw [tsteps]
        cases e with
        | second => simpa [tstep, hr1] using ih r hr1 hr2
        | pausePlayback =>
          have := ih { r with running := false, elapsed := 0 } rfl hr2
          simpa [tstep] using this
        | resumePlayback => simpa [tstep, hr2] using ih r hr1 hr2
        | exitMode =>
          have := ih { r with running := false, torndown := true } rfl rfl
          simpa [tstep] using this
    exact key evs s hs1 hs2

/-- Witness for C7: a cadence firing at 1495 wpm clamps to 1500; pausing a
running accelerator disarms it and resets its timer; a paused accelerator
ignores three seconds; a torn-down accelerator ignores an arbitrary later
event burst. -/
theorem training_cadence_witness :
    tsteps (List.replicate 10 TEvent.second) ⟨1495, true, 0, false⟩ =
      ⟨min 1500 (1495 + 10), true, 0, false⟩ ∧
    (tstep TEvent.pausePlayback ⟨400, true, 7, false⟩).running = false ∧
    (tstep TEvent.pausePlayback ⟨400, true, 7, false⟩).elapsed = 0 ∧
    tsteps (List.replicate 3 TEvent.second) ⟨400, false, 7, false⟩ =
      ⟨400, false, 7, false⟩ ∧
    (tsteps [TEvent.second, TEvent.resumePlayback, TEvent.second,
        TEvent.pausePlayback, TEvent.second] ⟨300, false, 0, true⟩).wpm =
      (⟨300, false, 0, true⟩ : TrainState).wpm :=
  training_cadence 1495 false 3 ⟨300, false, 0, true⟩ ⟨400, false, 7, false⟩
    ⟨400, true, 7, false⟩ rfl rfl rfl
    [TEvent.second, TEvent.resumePlayback, TEvent.second,
      TEvent.pausePlayback, TEvent.second]

end PulseReader
